import Mathlib

/-!
Shallow embedding of `src/contrib/lib/src/templates/engine.rs`: the
multi-backend template-engine dispatch layer (`Engines`) of the Rocket
contrib templating module, together with the `Engine` capability trait it
dispatches through.  The two concrete backends (`Tera`, `Handlebars`) live
outside the provided sources and do the real templating work; here they are
abstract `EngineImpl` values, so every theorem holds for arbitrary backend
behaviour.  The main build modelled is the one with both cargo features
(`tera_templates`, `handlebars_templates`) enabled; `ENABLED_EXTENSIONS` is
additionally modelled for every feature configuration, since in the source
it is a `cfg`-gated array literal.
-/

namespace Rocket

/-- A file-system path (`PathBuf` / `&Path` in the source), abstracted as a
string. -/
abbrev Path := String

/-- Modelled from the spec: the template registry maps a template name to
metadata built at startup: the template's source path and its owning
engine's extension.  The `TemplateInfo` struct itself lives in
`templates/mod.rs`, which is not among the provided sources; the fields are
exactly the ones `engine.rs` reads: an optional source `path`
(`Option<PathBuf>`) and the owning engine extension `engine_ext`. -/
structure TemplateInfo where
  path : Option Path
  engine_ext : String
deriving Repr, DecidableEq

/-- The registry handed to `Engines::init`: a `HashMap<String, TemplateInfo>`
in the source, modelled as its list of (name, info) entries. -/
abbrev Registry := List (String × TemplateInfo)

/-- The `Engine` trait of `engine.rs`: an extension constant `EXT`, fallible
initialization from an iterator of (name, path) pairs, and rendering a named
template with a serializable context.  `templateNames` is the per-backend
template-name enumeration that `Engines::templates` uses
(`Tera::get_template_names` / `Handlebars::get_templates().keys()`).
`S` is the backend's state type and `Ctx` the context type. -/
structure EngineImpl (S : Type) (Ctx : Type) where
  EXT : String
  init : List (String × Path) → Option S
  render : S → String → Ctx → Option String
  templateNames : S → List String

/-- The `Engines` struct with both cargo features enabled: one `Tera` state
and one `Handlebars` state. -/
structure Engines (ST SH : Type) where
  tera : ST
  handlebars : SH
deriving Repr, DecidableEq

/-- The set of cargo features of the templating module: `tera_templates`
and `handlebars_templates`. -/
structure Config where
  tera_templates : Bool
  handlebars_templates : Bool
deriving Repr, DecidableEq

/-- The configuration of the modelled build: both templating features
enabled. -/
def bothEnabled : Config :=
  { tera_templates := true, handlebars_templates := true }

/-- `Engines::ENABLED_EXTENSIONS`: the `cfg`-gated array literal
`&[Tera::EXT, Handlebars::EXT]`, one entry per compiled-in backend. -/
def Engines.ENABLED_EXTENSIONS {ST SH Ctx : Type}
    (cfg : Config) (T : EngineImpl ST Ctx) (H : EngineImpl SH Ctx) :
    List String :=
  (if cfg.tera_templates then [T.EXT] else []) ++
  (if cfg.handlebars_templates then [H.EXT] else [])

/-- The `named_templates` iterator built inside the local function `inner`
of `Engines::init`: keep the registry entries whose `engine_ext` equals the
backend's `EXT`, then keep only those with a `Some` path, yielding
(name, path) pairs. -/
def namedTemplates {S Ctx : Type} (E : EngineImpl S Ctx)
    (templates : Registry) : List (String × Path) :=
  (templates.filter (fun p => p.2.engine_ext == E.EXT)).filterMap
    (fun p => (p.2.path).map (fun q => (p.1, q)))

/-- The local function `inner` of `Engines::init`: initialize backend `E`
from the registry entries it owns. -/
def inner {S Ctx : Type} (E : EngineImpl S Ctx) (templates : Registry) :
    Option S :=
  E.init (namedTemplates E templates)

/-- `Engines::init` with both features enabled: initialize the Tera backend,
then the Handlebars backend, returning `none` as soon as either fails
(the `match ... None => return None` arms in the struct literal). -/
def Engines.init {ST SH Ctx : Type}
    (T : EngineImpl ST Ctx) (H : EngineImpl SH Ctx)
    (templates : Registry) : Option (Engines ST SH) :=
  match inner T templates with
  | none => none
  | some t =>
    match inner H templates with
    | none => none
    | some h => some { tera := t, handlebars := h }

/-- `Engines::render` with both features enabled: if the template info's
`engine_ext` equals `Tera::EXT`, return Tera's render; otherwise if it
equals `Handlebars::EXT`, return Handlebars' render; otherwise `None`. -/
def Engines.render {ST SH Ctx : Type}
    (T : EngineImpl ST Ctx) (H : EngineImpl SH Ctx)
    (e : Engines ST SH) (name : String) (info : TemplateInfo)
    (context : Ctx) : Option String :=
  if info.engine_ext == T.EXT then
    T.render e.tera name context
  else if info.engine_ext == H.EXT then
    H.render e.handlebars name context
  else
    none

/-- `Engines::templates` with both features enabled: Tera's template names
tagged `Tera::EXT`, chained with Handlebars' template names tagged
`Handlebars::EXT`. -/
def Engines.templates {ST SH Ctx : Type}
    (T : EngineImpl ST Ctx) (H : EngineImpl SH Ctx)
    (e : Engines ST SH) : List (String × String) :=
  ((T.templateNames e.tera).map (fun n => (n, T.EXT))) ++
  ((H.templateNames e.handlebars).map (fun n => (n, H.EXT)))

/-- A concrete Tera-like backend used to instantiate theorems on closed
inputs. -/
def demoT : EngineImpl Nat Nat where
  EXT := "tera"
  init := fun _ => some 0
  render := fun _ n _ => some n
  templateNames := fun _ => ["index"]

/-- A concrete Handlebars-like backend used to instantiate theorems on
closed inputs. -/
def demoH : EngineImpl Nat Nat where
  EXT := "hbs"
  init := fun _ => some 0
  render := fun _ n _ => some (n ++ n)
  templateNames := fun _ => ["page"]

/-- A concrete `Engines` value for the demo backends. -/
def demoEngines : Engines Nat Nat where
  tera := 0
  handlebars := 0

/-- C1: for every template info record and every enabled backend (Tera or
Handlebars, with their distinct extension constants), if the record's
`engine_ext` equals that backend's `EXT`, then `Engines::render` returns
exactly the result of that backend's own `render` called with the same
template name and the same context. -/
theorem render_dispatches_to_matching_backend
    {ST SH Ctx : Type} (T : EngineImpl ST Ctx) (H : EngineImpl SH Ctx)
    (hne : T.EXT ≠ H.EXT) (e : Engines ST SH) (name : String)
    (info : TemplateInfo) (c : Ctx) :
    (info.engine_ext = T.EXT →
      Engines.render T H e name info c = T.render e.tera name c) ∧
    (info.engine_ext = H.EXT →
      Engines.render T H e name info c = H.render e.handlebars name c) := by
  constructor
  · intro h
    simp [Engines.render, h]
  · intro h
    have hT : (H.EXT == T.EXT) = false := by
      simp only [beq_eq_false_iff_ne, ne_eq]
      exact fun hq => hne hq.symm
    simp [Engines.render, h, hT]

/-- Witness for C1 at the demo backends: the hypothesis that the two
extension constants differ holds for "tera" and "hbs", and a render call
with a Tera-owned info goes to the Tera backend. -/
theorem render_dispatches_to_matching_backend_witness :
    demoT.EXT ≠ demoH.EXT ∧
    Engines.render demoT demoH demoEngines "index"
      { path := some "t/index.html.tera", engine_ext := "tera" } 7 =
      demoT.render demoEngines.tera "index" 7 :=
  ⟨by decide,
   (render_dispatches_to_matching_backend demoT demoH (by decide)
      demoEngines "index"
      { path := some "t/index.html.tera", engine_ext := "tera" } 7).1 rfl⟩

/-- C2: `Engines::init` succeeds exactly when both enabled backends'
initializations succeed, and any produced `Engines` value holds exactly the
two successfully initialized backend states (so no partially initialized
value is ever produced). -/
theorem init_some_iff_all_backends_some
    {ST SH Ctx : Type} (T : EngineImpl ST Ctx) (H : EngineImpl SH Ctx)
    (ts : Registry) :
    ((Engines.init T H ts).isSome ↔
      (inner T ts).isSome ∧ (inner H ts).isSome) ∧
    (∀ e : Engines ST SH, Engines.init T H ts = some e →
      inner T ts = some e.tera ∧ inner H ts = some e.handlebars) := by
  constructor
  · cases hT : inner T ts <;> cases hH : inner H ts <;>
      simp [Engines.init, hT, hH]
  · intro e he
    cases hT : inner T ts with
    | none => simp [Engines.init, hT] at he
    | some t =>
      cases hH : inner H ts with
      | none => simp [Engines.init, hT, hH] at he
      | some h =>
        simp [Engines.init, hT, hH] at he
        subst he
        exact ⟨rfl, rfl⟩

/-- Witness for C2 at the demo backends on the empty registry: both inner
initializations succeed and the produced value holds their states. -/
theorem init_some_iff_all_backends_some_witness :
    Engines.init demoT demoH [] = some demoEngines ∧
    inner demoT [] = some demoEngines.tera ∧
    inner demoH [] = some demoEngines.handlebars :=
  ⟨rfl, (init_some_iff_all_backends_some demoT demoH []).2 demoEngines rfl⟩

/-- Characterization of the (name, path) pairs built by `named_templates`:
exactly the registry entries owned by the backend's extension that carry a
source path. -/
theorem mem_namedTemplates
    {S Ctx : Type} (E : EngineImpl S Ctx) (ts : Registry)
    (n : String) (p : Path) :
    (n, p) ∈ namedTemplates E ts ↔
      ∃ i : TemplateInfo,
        (n, i) ∈ ts ∧ i.engine_ext = E.EXT ∧ i.path = some p := by
  simp only [namedTemplates, List.mem_filterMap, List.mem_filter,
    Option.map_eq_some', beq_iff_eq, Prod.mk.injEq]
  constructor
  · rintro ⟨⟨m, i⟩, ⟨hmem, hext⟩, q, hq, hn, hp⟩
    subst hn hp
    exact ⟨i, hmem, hext, hq⟩
  · rintro ⟨i, hmem, hext, hq⟩
    exact ⟨(n, i), ⟨hmem, hext⟩, p, hq, rfl, rfl⟩

/-- C3: the (name, path) list that `inner` hands to a backend's `init`
contains exactly the registry entries whose owning engine extension equals
that backend's `EXT` (and that have a source path); entries registered
under a different extension never appear in it. -/
theorem namedTemplates_mem_iff
    {S Ctx : Type} (E : EngineImpl S Ctx) (ts : Registry)
    (n : String) (p : Path) :
    (n, p) ∈ namedTemplates E ts ↔
      ∃ i : TemplateInfo,
        (n, i) ∈ ts ∧ i.engine_ext = E.EXT ∧ i.path = some p :=
  mem_namedTemplates E ts n p

/-- C4: when the template info's engine extension equals no enabled
backend's extension constant, `Engines::render` returns `None`. -/
theorem render_none_of_unknown_extension
    {ST SH Ctx : Type} (T : EngineImpl ST Ctx) (H : EngineImpl SH Ctx)
    (e : Engines ST SH) (name : String) (info : TemplateInfo) (c : Ctx)
    (h : info.engine_ext ∉ Engines.ENABLED_EXTENSIONS bothEnabled T H) :
    Engines.render T H e name info c = none := by
  simp only [Engines.ENABLED_EXTENSIONS, bothEnabled, if_true,
    List.mem_append, List.mem_singleton] at h
  push_neg at h
  simp [Engines.render, h.1, h.2]

/-- Witness for C4: an info registered under the extension "txt", which no
enabled backend owns, renders to `none` with the demo backends. -/
theorem render_none_of_unknown_extension_witness :
    (("txt" : String) ∉
      Engines.ENABLED_EXTENSIONS bothEnabled demoT demoH) ∧
    Engines.render demoT demoH demoEngines "index"
      { path := some "t/index.txt", engine_ext := "txt" } 3 = none :=
  ⟨by decide,
   render_none_of_unknown_extension demoT demoH demoEngines "index"
     { path := some "t/index.txt", engine_ext := "txt" } 3 (by decide)⟩

/-- C5: the context is passed opaquely.  For every engines value, name and
info there is a single choice of forwarding function, independent of the
context, such that rendering any context goes through that choice, and the
choice is exactly one of: the Tera backend's render at that name, the
Handlebars backend's render at that name, or the constant `none`; in each
forwarding case the caller's context reaches the backend unchanged. -/
theorem render_context_passthrough
    {ST SH Ctx : Type} (T : EngineImpl ST Ctx) (H : EngineImpl SH Ctx)
    (e : Engines ST SH) (name : String) (info : TemplateInfo) :
    ∃ f : Option (Ctx → Option String),
      (∀ c : Ctx, Engines.render T H e name info c =
        (match f with
         | some g => g c
         | none => none)) ∧
      (f = some (fun c => T.render e.tera name c) ∨
       f = some (fun c => H.render e.handlebars name c) ∨
       f = none) := by
  by_cases h1 : info.engine_ext = T.EXT
  · refine ⟨some (fun c => T.render e.tera name c), ?_, Or.inl rfl⟩
    intro c
    simp [Engines.render, h1]
  · by_cases h2 : info.engine_ext = H.EXT
    · have h1q : (H.EXT == T.EXT) = false := by
        simp only [beq_eq_false_iff_ne, ne_eq]
        exact fun hq => h1 (h2.trans hq)
      refine ⟨some (fun c => H.render e.handlebars name c), ?_,
        Or.inr (Or.inl rfl)⟩
      intro c
      simp [Engines.render, h2, h1q]
    · refine ⟨none, ?_, Or.inr (Or.inr rfl)⟩
      intro c
      simp [Engines.render, h1, h2]

/-- C6: `Engines::templates` yields exactly the union over the enabled
backends of that backend's stored template names, each tagged with that
backend's extension constant. -/
theorem templates_mem_iff
    {ST SH Ctx : Type} (T : EngineImpl ST Ctx) (H : EngineImpl SH Ctx)
    (e : Engines ST SH) (n ext : String) :
    (n, ext) ∈ Engines.templates T H e ↔
      (ext = T.EXT ∧ n ∈ T.templateNames e.tera) ∨
      (ext = H.EXT ∧ n ∈ H.templateNames e.handlebars) := by
  simp only [Engines.templates, List.mem_append, List.mem_map,
    Prod.mk.injEq]
  constructor
  · rintro (⟨a, ha, rfl, rfl⟩ | ⟨a, ha, rfl, rfl⟩)
    · exact Or.inl ⟨rfl, ha⟩
    · exact Or.inr ⟨rfl, ha⟩
  · rintro (⟨rfl, ha⟩ | ⟨rfl, ha⟩)
    · exact Or.inl ⟨n, ha, rfl, rfl⟩
    · exact Or.inr ⟨n, ha, rfl, rfl⟩

/-- C7: for every feature configuration, `Engines::ENABLED_EXTENSIONS`
contains exactly one entry per compiled-in backend, namely that backend's
extension constant, and nothing else. -/
theorem enabled_extensions_exact
    {ST SH Ctx : Type} (T : EngineImpl ST Ctx) (H : EngineImpl SH Ctx)
    (cfg : Config) :
    (∀ x : String, x ∈ Engines.ENABLED_EXTENSIONS cfg T H ↔
      ((cfg.tera_templates = true ∧ x = T.EXT) ∨
       (cfg.handlebars_templates = true ∧ x = H.EXT))) ∧
    (Engines.ENABLED_EXTENSIONS cfg T H).length =
      ((if cfg.tera_templates then 1 else 0) +
       (if cfg.handlebars_templates then 1 else 0)) := by
  obtain ⟨t, h⟩ := cfg
  cases t <;> cases h <;> simp [Engines.ENABLED_EXTENSIONS]

/-- Dropping the pathless registry entries before building
`named_templates` changes nothing: `named_templates` already skips them. -/
theorem namedTemplates_filter_isSome
    {S Ctx : Type} (E : EngineImpl S Ctx) (ts : Registry) :
    namedTemplates E (ts.filter (fun p => (p.2.path).isSome)) =
      namedTemplates E ts := by
  induction ts with
  | nil => rfl
  | cons a ts ih =>
    obtain ⟨n, i⟩ := a
    cases hp : i.path <;>
      cases he : (i.engine_ext == E.EXT) <;>
        simp_all [namedTemplates, List.filter_cons, List.filterMap_cons,
          hp, he]

/-- C8: registry entries whose source path is `None` are silently dropped:
`Engines::init` gives the same result whether or not they are present, and
every (name, path) pair actually handed to a backend comes from an entry
that has a path. -/
theorem init_drops_pathless_silently
    {ST SH Ctx : Type} (T : EngineImpl ST Ctx) (H : EngineImpl SH Ctx)
    (ts : Registry) :
    Engines.init T H (ts.filter (fun p => (p.2.path).isSome)) =
      Engines.init T H ts ∧
    (∀ n p, (n, p) ∈ namedTemplates T ts →
      ∃ i : TemplateInfo, (n, i) ∈ ts ∧ i.path = some p) ∧
    (∀ n p, (n, p) ∈ namedTemplates H ts →
      ∃ i : TemplateInfo, (n, i) ∈ ts ∧ i.path = some p) := by
  refine ⟨?_, ?_, ?_⟩
  · simp [Engines.init, inner, namedTemplates_filter_isSome]
  · intro n p hmem
    obtain ⟨i, hi, _, hp⟩ := (mem_namedTemplates T ts n p).mp hmem
    exact ⟨i, hi, hp⟩
  · intro n p hmem
    obtain ⟨i, hi, _, hp⟩ := (mem_namedTemplates H ts n p).mp hmem
    exact ⟨i, hi, hp⟩

/-- Witness for C8 on a concrete registry holding one pathless Tera entry
and one Handlebars entry with a path: initialization is unchanged by the
pathless entry. -/
theorem init_drops_pathless_silently_witness :
    Engines.init demoT demoH
      (([("a", { path := none, engine_ext := "tera" }),
         ("b", { path := some "b.hbs", engine_ext := "hbs" })] :
        Registry).filter (fun p => (p.2.path).isSome)) =
      Engines.init demoT demoH
        [("a", { path := none, engine_ext := "tera" }),
         ("b", { path := some "b.hbs", engine_ext := "hbs" })] :=
  (init_drops_pathless_silently demoT demoH
    [("a", { path := none, engine_ext := "tera" }),
     ("b", { path := some "b.hbs", engine_ext := "hbs" })]).1

/-- C9: the backend chosen by `Engines::render` is a function of the
template info alone: there is a selection, fixed before the name and
context are consulted, such that rendering any name with any context
forwards to the selected backend unconditionally, with no check that the
backend actually holds a template of that name. -/
theorem render_selection_depends_only_on_info
    {ST SH Ctx : Type} (T : EngineImpl ST Ctx) (H : EngineImpl SH Ctx)
    (e : Engines ST SH) (info : TemplateInfo) :
    ∃ sel : Option Bool,
      sel = (if info.engine_ext == T.EXT then some true
             else if info.engine_ext == H.EXT then some false
             else none) ∧
      ∀ (name : String) (c : Ctx),
        Engines.render T H e name info c =
          (match sel with
           | some true => T.render e.tera name c
           | some false => H.render e.handlebars name c
           | none => none) := by
  refine ⟨_, rfl, ?_⟩
  intro name c
  by_cases h1 : info.engine_ext = T.EXT
  · have h1t : (info.engine_ext == T.EXT) = true := by simp [h1]
    simp [Engines.render, h1t]
  · have h1f : (info.engine_ext == T.EXT) = false := by simp [h1]
    by_cases h2 : info.engine_ext = H.EXT
    · have h2t : (info.engine_ext == H.EXT) = true := by simp [h2]
      simp [Engines.render, h1f, h2t]
    · have h2f : (info.engine_ext == H.EXT) = false := by simp [h2]
      simp [Engines.render, h1f, h2f]

/-- Positions of an append: an element satisfying a property exclusive to
the left list sits at a strictly smaller index than one satisfying a
property exclusive to the right list. -/
theorem append_left_indices_lt
    {α : Type} (L A B : List α) (hL : L = A ++ B) (P Q : α → Prop)
    (hA : ∀ x ∈ A, P x) (hB : ∀ x ∈ B, Q x)
    (hPQ : ∀ x, P x → Q x → False)
    (i j : Fin L.length)
    (hi : P (L.get i)) (hj : Q (L.get j)) :
    (i : Nat) < (j : Nat) := by
  subst hL
  have hiA : (i : Nat) < A.length := by
    by_contra hcon
    push_neg at hcon
    have hmem : (A ++ B).get i ∈ B := by
      rw [List.get_eq_getElem, List.getElem_append_right hcon]
      exact List.getElem_mem _
    exact hPQ _ hi (hB _ hmem)
  have hjA : A.length ≤ (j : Nat) := by
    by_contra hcon
    push_neg at hcon
    have hmem : (A ++ B).get j ∈ A := by
      rw [List.get_eq_getElem, List.getElem_append_left hcon]
      exact List.getElem_mem _
    exact hPQ _ (hA _ hmem) hj
  exact lt_of_lt_of_le hiA hjA

/-- C10: with both backends enabled, `Engines::templates` yields every
Tera-tagged template name before any Handlebars-tagged one: a position
tagged with Tera's extension is strictly before any position tagged with
Handlebars' extension. -/
theorem templates_tera_before_handlebars
    {ST SH Ctx : Type} (T : EngineImpl ST Ctx) (H : EngineImpl SH Ctx)
    (hne : T.EXT ≠ H.EXT) (e : Engines ST SH)
    (i j : Fin (Engines.templates T H e).length)
    (hi : ((Engines.templates T H e).get i).2 = T.EXT)
    (hj : ((Engines.templates T H e).get j).2 = H.EXT) :
    (i : Nat) < (j : Nat) := by
  refine append_left_indices_lt (Engines.templates T H e)
    ((T.templateNames e.tera).map (fun n => (n, T.EXT)))
    ((H.templateNames e.handlebars).map (fun n => (n, H.EXT)))
    rfl (fun x => x.2 = T.EXT) (fun x => x.2 = H.EXT)
    ?_ ?_ ?_ i j hi hj
  · intro x hx
    obtain ⟨a, _, rfl⟩ := List.mem_map.mp hx
    rfl
  · intro x hx
    obtain ⟨a, _, rfl⟩ := List.mem_map.mp hx
    rfl
  · intro x hxT hxH
    exact hne (hxT.symm.trans hxH)

/-- Witness for C10 at the demo backends: the demo engines hold the Tera
template "index" at position 0 and the Handlebars template "page" at
position 1, and 0 is before 1. -/
theorem templates_tera_before_handlebars_witness :
    demoT.EXT ≠ demoH.EXT ∧
    ((Engines.templates demoT demoH demoEngines).get ⟨0, by decide⟩).2
        = demoT.EXT ∧
    ((Engines.templates demoT demoH demoEngines).get ⟨1, by decide⟩).2
        = demoH.EXT ∧
    (0 : Nat) < 1 := by
  refine ⟨by decide, by decide, by decide, ?_⟩
  exact templates_tera_before_handlebars demoT demoH (by decide)
    demoEngines ⟨0, by decide⟩ ⟨1, by decide⟩ (by decide) (by decide)

end Rocket
